import Mathlib

/-!
Verification of the RegiusMark core against its natural-language
specification.

The development shallowly embeds the Rust sources:
  * `crates/regiusmark/src/asset/mod.rs` — fixed-point asset type,
    checked arithmetic, string parsing and formatting;
  * `crates/godcoin/src/godcoin/net/rpc/codec.rs` — the legacy framed
    RPC codec (`RpcCodec::encode` / `RpcCodec::decode`);
  * `crates/server/src/server/lib.rs` — the WebSocket connection
    handler (`process_message`, `WsState`).

Machine integers are embedded as `Nat`/`Int` with explicit range
checks; byte buffers are `List Nat` with every element a byte value;
fallible operations return `Option` or a dedicated result type.
Functions keep the source's names where Lean's rules allow.
-/

set_option maxRecDepth 8000

/-- Equality on `Except` values is decidable when it is on both sides. -/
instance {ε α : Type} [DecidableEq ε] [DecidableEq α] :
    DecidableEq (Except ε α) := fun a b =>
  match a, b with
  | .ok x, .ok y =>
    if h : x = y then .isTrue (by rw [h]) else .isFalse (by simp [h])
  | .error x, .error y =>
    if h : x = y then .isTrue (by rw [h]) else .isFalse (by simp [h])
  | .ok _, .error _ => .isFalse (by simp)
  | .error _, .ok _ => .isFalse (by simp)

/-! ## Asset (crates/regiusmark/src/asset/mod.rs) -/

/-- `pub const MAX_STR_LEN: usize = 26`. -/
def MAX_STR_LEN : Nat := 26

/-- `pub const MAX_PRECISION: u8 = 5`. -/
def MAX_PRECISION : Nat := 5

/-- Lower bound of Rust `i64`. -/
def I64_MIN : Int := -(2 ^ 63)

/-- Upper bound of Rust `i64`. -/
def I64_MAX : Int := 2 ^ 63 - 1

/-- `x` fits in Rust `i64`. -/
def i64Range (x : Int) : Prop := I64_MIN ≤ x ∧ x ≤ I64_MAX

instance (x : Int) : Decidable (i64Range x) := by
  unfold i64Range; infer_instance

/-- `pub struct Asset { pub amount: i64 }`. -/
structure Asset where
  amount : Int
deriving DecidableEq, Repr

/-- Error kinds used by `FromStr for Asset` (`asset/error.rs`; the kinds
are the ones the parser in `asset/mod.rs` constructs). -/
inductive AssetErrorKind where
  | StrTooLarge
  | InvalidFormat
  | InvalidAmount
  | InvalidAssetType
deriving DecidableEq, Repr

/-- Modelled from the spec: the precision-conversion helper
`set_decimals_i64` lives in `asset/precision.rs`, which is not among the
source files; the spec states that arithmetic is checked (overflow fails)
and that division truncates toward zero.  Raising the precision
multiplies by a power of ten with an `i64` overflow check; lowering it
divides truncating toward zero. -/
def set_decimals_i64 (num : Int) (oldP newP : Nat) : Option Int :=
  if oldP < newP then
    let r := num * 10 ^ (newP - oldP)
    if i64Range r then some r else none
  else if newP < oldP then
    some (Int.tdiv num (10 ^ (oldP - newP)))
  else
    some num

/-- Range of Rust `i128`. -/
def i128Range (x : Int) : Prop := -(2 ^ 127) ≤ x ∧ x ≤ 2 ^ 127 - 1

instance (x : Int) : Decidable (i128Range x) := by
  unfold i128Range; infer_instance

/-- Modelled from the spec: `set_decimals_i128` (also from the absent
`asset/precision.rs`), the `i128` analogue of `set_decimals_i64`; the
spec says multiplication uses 128-bit intermediates and truncates to the
asset's 5 decimal places. -/
def set_decimals_i128 (num : Int) (oldP newP : Nat) : Option Int :=
  if oldP < newP then
    let r := num * 10 ^ (newP - oldP)
    if i128Range r then some r else none
  else if newP < oldP then
    some (Int.tdiv num (10 ^ (oldP - newP)))
  else
    some num

/-- `i64::checked_add`. -/
def i64_checked_add (a b : Int) : Option Int :=
  let r := a + b
  if i64Range r then some r else none

/-- `i64::checked_sub`. -/
def i64_checked_sub (a b : Int) : Option Int :=
  let r := a - b
  if i64Range r then some r else none

/-- `i128::checked_mul`. -/
def i128_checked_mul (a b : Int) : Option Int :=
  let r := a * b
  if i128Range r then some r else none

/-- `i64::checked_div` (Rust division truncates toward zero; it fails on
a zero divisor and on `i64::MIN / -1`). -/
def i64_checked_div (a b : Int) : Option Int :=
  if b = 0 then none
  else if a = I64_MIN ∧ b = -1 then none
  else some (Int.tdiv a b)

/-- `i128 as i64`: wrap to the `i64` range (two's complement). -/
def wrap_i64 (x : Int) : Int := (x + 2 ^ 63) % 2 ^ 64 - 2 ^ 63

/-- `Asset::checked_add`. -/
def Asset.checked_add (a other : Asset) : Option Asset :=
  (i64_checked_add a.amount other.amount).map Asset.mk

/-- `Asset.checked_sub`. -/
def Asset.checked_sub (a other : Asset) : Option Asset :=
  (i64_checked_sub a.amount other.amount).map Asset.mk

/-- `Asset::checked_mul`: multiply in 128 bits, drop back from
`MUL_PRECISION = 10` to `MAX_PRECISION = 5` decimals, fail when the
result exceeds `i64::MAX` (the source checks only the upper bound before
casting with `as i64`). -/
def Asset.checked_mul (a other : Asset) : Option Asset :=
  match i128_checked_mul a.amount other.amount with
  | none => none
  | some mul =>
    match set_decimals_i128 mul (2 * MAX_PRECISION) MAX_PRECISION with
    | none => none
    | some final_mul =>
      if final_mul > I64_MAX then none
      else some ⟨wrap_i64 final_mul⟩

/-- `Asset::checked_div`: fail on a zero divisor, raise the dividend to
`DIV_PRECISION = 10` decimals, then `i64::checked_div`. -/
def Asset.checked_div (a other : Asset) : Option Asset :=
  if other.amount = 0 then none
  else
    match set_decimals_i64 a.amount MAX_PRECISION (2 * MAX_PRECISION) with
    | none => none
    | some a2 =>
      match i64_checked_div a2 other.amount with
      | none => none
      | some q => some ⟨q⟩

/-- The rational value an asset denotes: `amount` scaled by `10^-5`. -/
def Asset.val (a : Asset) : ℚ := (a.amount : ℚ) / 10 ^ 5

/-! ### Asset string formatting (`impl ToString for Asset`) -/

/-- Decimal digits of a natural number, most significant first
(`u64`-style `to_string` for the magnitude).  Fuel-based so that it
reduces by `decide`/`rfl`; `natDigits` supplies enough fuel. -/
def natDigitsAux : Nat → Nat → List Char
  | 0, _ => []
  | fuel + 1, n =>
    if n < 10 then [Char.ofNat (48 + n)]
    else natDigitsAux fuel (n / 10) ++ [Char.ofNat (48 + n % 10)]

/-- Decimal digit characters of `n`. -/
def natDigits (n : Nat) : List Char := natDigitsAux (n + 1) n

/-- `i64::to_string` as a character list: optional minus sign followed
by the decimal digits of the magnitude. -/
def intChars (i : Int) : List Char :=
  if i < 0 then '-' :: natDigits i.natAbs else natDigits i.toNat

/-- `String::insert_str(pos, what)` on a character list. -/
def insertStr (pos : Nat) (what s : List Char) : List Char :=
  s.take pos ++ what ++ s.drop pos

/-- `impl ToString for Asset`: render the amount, place the decimal
point five digits from the right (padding with zeros when the digit
string is short), then append the `" MARK"` symbol. -/
def Asset.to_string (a : Asset) : String :=
  let s := intChars a.amount
  let len := s.length
  let s :=
    if len < MAX_PRECISION then
      let start := if a.amount < 0 then 1 else 0
      let diff := MAX_PRECISION - len + start
      insertStr (start + 2) (List.replicate diff '0') (insertStr start ['0', '.'] s)
    else if len = MAX_PRECISION then
      insertStr 0 ['0', '.'] s
    else
      insertStr (len - MAX_PRECISION) ['.'] s
  String.mk (s ++ [' ', 'M', 'A', 'R', 'K'])

/-! ### Asset string parsing (`impl FromStr for Asset`) -/

/-- `str::trim` on a character list (ASCII whitespace at both ends). -/
def trimChars (s : List Char) : List Char :=
  ((s.dropWhile Char.isWhitespace).reverse.dropWhile Char.isWhitespace).reverse

/-- `splitn(2, ' ')`: the part before the first space, and the rest
after it when a space exists. -/
def splitFirstSpace : List Char → List Char × Option (List Char)
  | [] => ([], none)
  | c :: rest =>
    if c = ' ' then ([], some rest)
    else
      let (l, r) := splitFirstSpace rest
      (c :: l, r)

/-- `<i64 as FromStr>::parse`: optional sign, at least one ASCII digit,
nothing else, and the value must fit in `i64`. -/
def parse_i64 (cs : List Char) : Option Int :=
  let (sign, digits) :=
    match cs with
    | '+' :: rest => ((1 : Int), rest)
    | '-' :: rest => ((-1 : Int), rest)
    | _ => ((1 : Int), cs)
  if digits = [] then none
  else if digits.all Char.isDigit then
    let n : Nat := digits.foldl (fun acc c => acc * 10 + (c.toNat - 48)) 0
    let v : Int := sign * n
    if i64Range v then some v else none
  else none

/-- `impl FromStr for Asset`.  Check the byte length against
`MAX_STR_LEN`, trim, split at the first space; the amount token must
contain a `.` with exactly `MAX_PRECISION` digits after it and parse as
an `i64` once the dots are removed; the second token must be `"MARK"`. -/
def Asset.from_str (s : String) : Except AssetErrorKind Asset :=
  if s.utf8ByteSize > MAX_STR_LEN then .error .StrTooLarge
  else
    let (tok, rest) := splitFirstSpace (trimChars s.toList)
    match tok.findIdx? (· = '.') with
    | none => .error .InvalidFormat
    | some pos =>
      let decimals :=
        let len := tok.length - 1
        if pos > 0 then len - pos else len
      if decimals ≠ MAX_PRECISION then .error .InvalidFormat
      else
        match parse_i64 (tok.filter (· ≠ '.')) with
        | none => .error .InvalidAmount
        | some amount =>
          match rest with
          | none => .error .InvalidFormat
          | some unit =>
            if unit ≠ ['M', 'A', 'R', 'K'] then .error .InvalidAssetType
            else .ok ⟨amount⟩

/-! ## Helper lemmas for truncating division -/

/-- Truncating remainder negates with its first argument. -/
theorem neg_tmod_left (x y : Int) : Int.tmod (-x) y = -(Int.tmod x y) := by
  simp [Int.tmod_def, Int.neg_tdiv]
  ring

/-- The truncating remainder is smaller than the divisor in absolute
value. -/
theorem abs_tmod_lt (x y : Int) (hy : y ≠ 0) : |Int.tmod x y| < |y| := by
  rcases le_or_lt 0 x with hx | hx
  · have h1 : 0 ≤ Int.tmod x y := Int.tmod_nonneg y hx
    rw [abs_of_nonneg h1]
    rcases lt_or_gt_of_ne hy with h | h
    · have h2 : Int.tmod x y = Int.tmod x (-y) := by rw [Int.tmod_neg]
      rw [h2, abs_of_neg h]
      exact Int.tmod_lt_of_pos x (by omega)
    · rw [abs_of_pos h]
      exact Int.tmod_lt_of_pos x h
  · have hx2 : 0 ≤ -x := by omega
    have h1 : 0 ≤ Int.tmod (-x) y := Int.tmod_nonneg y hx2
    have h2 : Int.tmod (-x) y = -(Int.tmod x y) := neg_tmod_left x y
    have h3 : |Int.tmod x y| = Int.tmod (-x) y := by
      rw [h2, abs_of_nonpos (by omega)]
    rw [h3]
    rcases lt_or_gt_of_ne hy with h | h
    · have h4 : Int.tmod (-x) y = Int.tmod (-x) (-y) := by rw [Int.tmod_neg]
      rw [h4, abs_of_neg h]
      exact Int.tmod_lt_of_pos (-x) (by omega)
    · rw [abs_of_pos h]
      exact Int.tmod_lt_of_pos (-x) h

/-- Truncated quotient times divisor misses the dividend by less than
the divisor, in absolute value. -/
theorem abs_tdiv_mul_sub_lt (x y : Int) (hy : y ≠ 0) :
    |Int.tdiv x y * y - x| < |y| := by
  have h := Int.tdiv_add_tmod x y
  have h2 : Int.tdiv x y * y - x = -(Int.tmod x y) := by
    linarith [h, mul_comm y (Int.tdiv x y)]
  rw [h2, abs_neg]
  exact abs_tmod_lt x y hy

/-- Shape of a successful `Asset::checked_div`: the divisor is non-zero
and the quotient is the truncated division of the `10^5`-scaled dividend
by the divisor. -/
theorem checked_div_some (a b q : Asset) (h : a.checked_div b = some q) :
    b.amount ≠ 0 ∧ q.amount = Int.tdiv (a.amount * 100000) b.amount := by
  by_cases hb : b.amount = 0
  · simp [Asset.checked_div, hb] at h
  · by_cases hr : i64Range (a.amount * 100000)
    · by_cases hmin : a.amount * 100000 = I64_MIN ∧ b.amount = -1
      · simp only [Asset.checked_div, set_decimals_i64, i64_checked_div,
          MAX_PRECISION] at h
        norm_num [hb, hr, hmin] at h
        rw [if_pos (show i64Range I64_MIN by
          norm_num [i64Range, I64_MIN, I64_MAX])] at h
        simp at h
      · simp only [Asset.checked_div, set_decimals_i64, i64_checked_div,
          MAX_PRECISION] at h
        norm_num [hb, hr, hmin] at h
        exact ⟨hb, by rw [← h]⟩
    · simp only [Asset.checked_div, set_decimals_i64, MAX_PRECISION] at h
      norm_num [hb, hr] at h
      exact Option.noConfusion h

/-! ## Claim C1 — asset parse and stringify -/

/-- C1, counterexample: the claim says `"1.00000 GRAEL"` parses and
round trips, but the parser only accepts the symbol `MARK`;
`"1.00000 GRAEL"` fails with `InvalidAssetType`. -/
theorem C1_counterexample :
    Asset.from_str "1.00000 GRAEL" = .error .InvalidAssetType := by decide

/-- C1, amended: the asset symbol is `MARK`, not `GRAEL`.
`"1.00000 MARK"` parses to `Asset(100000)` and stringifies back to
`"1.00000 MARK"`; `"1.00000 GRAEL"` fails with `InvalidAssetType`;
`"1 GRAEL"` and `"1.000000 GRAEL"` fail with `InvalidFormat`;
`"1.00000 mark"` fails with `InvalidAssetType`. -/
theorem C1_asset_parse_stringify :
    Asset.from_str "1.00000 MARK" = .ok ⟨100000⟩ ∧
    Asset.to_string ⟨100000⟩ = "1.00000 MARK" ∧
    Asset.from_str "1.00000 GRAEL" = .error .InvalidAssetType ∧
    Asset.from_str "1 GRAEL" = .error .InvalidFormat ∧
    Asset.from_str "1.000000 GRAEL" = .error .InvalidFormat ∧
    Asset.from_str "1.00000 mark" = .error .InvalidAssetType := by
  refine ⟨by decide, by decide, by decide, by decide, by decide, by decide⟩

/-! ## Claim C6 — checked arithmetic scenarios -/

/-- C6: `Asset(12_345_600) * Asset(10_000_011_111)` is
`Asset(1_234_561_371_719)` after truncation to 5 decimal places;
division by the zero asset always fails; `Asset(i64::MAX) + Asset(1)`
overflows and fails. -/
theorem C6_checked_arithmetic :
    Asset.checked_mul ⟨12345600⟩ ⟨10000011111⟩ = some ⟨1234561371719⟩ ∧
    (∀ a : Asset, Asset.checked_div a ⟨0⟩ = none) ∧
    Asset.checked_add ⟨9223372036854775807⟩ ⟨1⟩ = none := by
  refine ⟨by decide, fun a => by simp [Asset.checked_div], by decide⟩

/-! ## Claim C7 — division truncation bound -/

/-- C7, counterexample: the claimed bound `|q * b - a| < 10^-5` fails
for `a = Asset(1)` (`0.00001`) and `b = Asset(10^7)` (`100.0`): the
quotient truncates to zero and the error is exactly `10^-5`. -/
theorem C7_counterexample :
    Asset.checked_div ⟨1⟩ ⟨10000000⟩ = some ⟨0⟩ ∧
    ¬ (|Asset.val ⟨0⟩ * Asset.val ⟨10000000⟩ - Asset.val ⟨1⟩|
        < 1 / 10 ^ 5) := by
  constructor
  · decide
  · norm_num [Asset.val]
    exact le_abs_self _

/-- C7, amended: for every successful division `a.checked_div(b) = q`
the truncation error obeys `|q * b - a| < |b| * 10^-5`; the spec's
bound `10^-5` is the special case `|b| ≤ 1`. -/
theorem C7_div_truncation_bound (a b q : Asset)
    (h : a.checked_div b = some q) :
    |q.val * b.val - a.val| < |b.val| / 10 ^ 5 := by
  obtain ⟨hb, hq⟩ := checked_div_some a b q h
  have key : |q.amount * b.amount - a.amount * 100000| < |b.amount| := by
    rw [hq]
    exact abs_tdiv_mul_sub_lt (a.amount * 100000) b.amount hb
  have e1 : q.val * b.val - a.val
      = ((q.amount * b.amount - a.amount * 100000 : Int) : ℚ) / 10 ^ 10 := by
    unfold Asset.val
    push_cast
    ring
  have e2 : |b.val| / 10 ^ 5 = ((|b.amount| : Int) : ℚ) / 10 ^ 10 := by
    unfold Asset.val
    rw [abs_div, abs_of_pos (show (0:ℚ) < 10 ^ 5 by norm_num)]
    push_cast
    ring
  rw [e1, e2, abs_div, abs_of_pos (show (0:ℚ) < 10 ^ 10 by norm_num)]
  refine (div_lt_div_iff_of_pos_right (by norm_num)).mpr ?_
  exact_mod_cast key

/-- C7, witness: the bound at `123.456 / 23.0 = 5.36765` (truncated). -/
theorem C7_witness :
    |Asset.val ⟨536765⟩ * Asset.val ⟨2300000⟩ - Asset.val ⟨12345600⟩|
      < |Asset.val ⟨2300000⟩| / 10 ^ 5 :=
  C7_div_truncation_bound ⟨12345600⟩ ⟨2300000⟩ ⟨536765⟩ (by decide)

/-! ## Byte-level primitives (big-endian, as the `bytes` crate and the
serializer use them) -/

/-- Big-endian bytes of a `u32`. -/
def u32be (n : Nat) : List Nat :=
  [n / 16777216 % 256, n / 65536 % 256, n / 256 % 256, n % 256]

/-- Big-endian bytes of a `u64`. -/
def u64be (n : Nat) : List Nat := u32be (n / 4294967296) ++ u32be (n % 4294967296)

/-- The value of four big-endian bytes (`u32_from_buf!`). -/
def beNat4 (b0 b1 b2 b3 : Nat) : Nat := ((b0 * 256 + b1) * 256 + b2) * 256 + b3

/-- `get_u8` on a cursor: `none` models the panic of the `bytes` crate
on an exhausted buffer. -/
def readU8 : List Nat → Option (Nat × List Nat)
  | b :: rest => some (b, rest)
  | [] => none

/-- `get_u32_be` on a cursor. -/
def readU32 : List Nat → Option (Nat × List Nat)
  | b0 :: b1 :: b2 :: b3 :: rest => some (beNat4 b0 b1 b2 b3, rest)
  | _ => none

/-- `get_u64_be` on a cursor. -/
def readU64 (l : List Nat) : Option (Nat × List Nat) :=
  match readU32 l with
  | none => none
  | some (hi, l) =>
    match readU32 l with
    | none => none
    | some (lo, l) => some (hi * 4294967296 + lo, l)

/-- Read exactly `n` bytes, failing when fewer remain. -/
def readN (n : Nat) (l : List Nat) : Option (List Nat × List Nat) :=
  if l.length < n then none else some (l.take n, l.drop n)

/-- A `u64` bit pattern reinterpreted as a two's-complement `i64`. -/
def toI64 (n : Nat) : Int := if n < 2 ^ 63 then (n : Int) else (n : Int) - 2 ^ 64

/-- Big-endian bytes of an `i64` (two's complement). -/
def i64be (a : Int) : List Nat := u64be (a % 2 ^ 64).toNat

/-- Read a big-endian `i64`. -/
def readI64 (l : List Nat) : Option (Int × List Nat) :=
  (readU64 l).map (fun p => (toI64 p.1, p.2))

/-- Modelled from the spec: serializer helper `push_bytes(b)` →
`u32 len || bytes` (spec §4.1); `serializer.rs` is not among the source
files. -/
def push_bytes (b : List Nat) : List Nat := u32be b.length ++ b

/-- Modelled from the spec: `push_pub_key(k)` → raw 32 bytes. -/
def push_pub_key (k : List Nat) : List Nat := k

/-- Modelled from the spec: `push_asset(a)` → `i64 amount`. -/
def push_asset (a : Asset) : List Nat := i64be a.amount

/-- Modelled from the spec: `take_pub_key` reads 32 raw bytes, `None` on
a short buffer. -/
def take_pub_key (l : List Nat) : Option (List Nat × List Nat) := readN 32 l

/-- Modelled from the spec: `take_asset` reads an `i64` amount. -/
def take_asset (l : List Nat) : Option (Asset × List Nat) :=
  (readI64 l).map (fun p => (⟨p.1⟩, p.2))

/-- UTF-8 encoding of one character (what `str::as_bytes` yields). -/
def charUtf8 (c : Char) : List Nat :=
  let n := c.toNat
  if n < 128 then [n]
  else if n < 2048 then [192 + n / 64, 128 + n % 64]
  else if n < 65536 then [224 + n / 4096, 128 + n / 64 % 64, 128 + n % 64]
  else [240 + n / 262144, 128 + n / 4096 % 64, 128 + n / 64 % 64, 128 + n % 64]

/-- `str::as_bytes` / `String::len` source of truth: the UTF-8 bytes of
a string. -/
def utf8Bytes (s : String) : List Nat := (s.toList.map charUtf8).flatten

/-- `String::from_utf8_lossy` restricted to what can reach it here: each
ASCII byte maps to its character, anything else to U+FFFD.  The decoder
below only ever applies it to the empty list, because the buffer passed
to `read_exact` is allocated with `Vec::with_capacity` and has length
zero. -/
def utf8Lossy (bs : List Nat) : String :=
  String.mk (bs.map (fun b => if b < 128 then Char.ofNat b else Char.ofNat 65533))

/-! ## RPC message model (crates/godcoin/src/godcoin/net/rpc) -/

/-- `const MAX_PAYLOAD_LEN: u32 = 5_242_880` (5 MiB). -/
def MAX_PAYLOAD_LEN : Nat := 5242880

/-- `net::PeerType`; the spec fixes `Node = 0`, `Wallet = 1`. -/
inductive PeerType where
  | NODE
  | WALLET
deriving DecidableEq, Repr

/-- `PeerType as u8`. -/
def PeerType.toU8 : PeerType → Nat
  | .NODE => 0
  | .WALLET => 1

/-- `IO<In, Out>` of the rpc module: a request (`In`) or a response
(`Out`) payload. -/
inductive Io (α β : Type) where
  | In (a : α)
  | Out (b : β)
deriving DecidableEq, Repr

/-- `blockchain::Properties` as the codec uses it. -/
structure Properties where
  height : Nat
deriving DecidableEq, Repr

/-- `net::rpc::Balance { gold, silver }`. -/
structure Balance where
  gold : Asset
  silver : Asset
deriving DecidableEq, Repr

/-- `RpcEvent`: a transaction or a block event.  The transaction and
block types are parameters: their codecs live outside the embedded
file. -/
inductive RpcEvent (τ β : Type) where
  | tx (t : τ)
  | block (b : β)
deriving DecidableEq, Repr

/-- `RpcMsg`, parameterized by the transaction type `τ` and the signed
block type `β`. -/
inductive RpcMsg (τ β : Type) where
  | error (msg : String)
  | event (e : RpcEvent τ β)
  | handshake (pt : PeerType)
  | broadcast (t : τ)
  | properties (io : Io Unit Properties)
  | block (io : Io Nat β)
  | balance (io : Io (List Nat) Balance)
  | totalFee (io : Io (List Nat) Balance)
deriving DecidableEq, Repr

/-- `RpcPayload { id: u32, msg: Option<RpcMsg> }`. -/
structure RpcPayload (τ β : Type) where
  id : Nat
  msg : Option (RpcMsg τ β)
deriving DecidableEq, Repr

/-- Modelled from the spec: the numeric discriminants of `RpcMsgType`
are not among the source files; Rust assigns consecutive values in
declaration order, here taken to be the match order of the codec.  Every
theorem below depends only on the `Balance` tag being the one written in
the `TotalFee` encode branch and on the decoder testing tags in the
source's order — not on the particular values. -/
def RpcMsgType.Error : Nat := 0

/-- `RpcMsgType::Event` discriminant (see `RpcMsgType.Error`). -/
def RpcMsgType.Event : Nat := 1

/-- `RpcMsgType::Handshake` discriminant (see `RpcMsgType.Error`). -/
def RpcMsgType.Handshake : Nat := 2

/-- `RpcMsgType::Broadcast` discriminant (see `RpcMsgType.Error`). -/
def RpcMsgType.Broadcast : Nat := 3

/-- `RpcMsgType::Properties` discriminant (see `RpcMsgType.Error`). -/
def RpcMsgType.Properties : Nat := 4

/-- `RpcMsgType::Block` discriminant (see `RpcMsgType.Error`). -/
def RpcMsgType.Block : Nat := 5

/-- `RpcMsgType::Balance` discriminant (see `RpcMsgType.Error`). -/
def RpcMsgType.Balance : Nat := 6

/-- `RpcMsgType::TotalFee` discriminant (see `RpcMsgType.Error`). -/
def RpcMsgType.TotalFee : Nat := 7

/-- `RpcEventType::TX = 0` (spec: `event_type ∈ {Tx=0, Block=1}`). -/
def RpcEventType.TX : Nat := 0

/-- `RpcEventType::BLOCK = 1`. -/
def RpcEventType.BLOCK : Nat := 1

/-- Modelled from the spec: `IoType::In` discriminant (not among the
source files; `In` before `Out`, values irrelevant to the theorems). -/
def IoType.In : Nat := 0

/-- Modelled from the spec: `IoType::Out` discriminant. -/
def IoType.Out : Nat := 1

/-! ## RpcCodec (crates/godcoin/src/godcoin/net/rpc/codec.rs) -/

/-- `pub struct RpcCodec { msg_len: u32 }` — the decoder's state between
reads. -/
structure RpcCodec where
  msg_len : Nat
deriving DecidableEq, Repr

/-- `RpcCodec::encode` body bytes after the request id: one match arm
per message.  `etx`/`eblk` are `TxVariant::encode_with_sigs` and
`SignedBlock::encode_with_tx`, whose sources live outside the embedded
file and are passed as parameters. -/
def encodeMsg {τ β : Type} (etx : τ → List Nat) (eblk : β → List Nat) :
    RpcMsg τ β → List Nat
  | .error err =>
    let bytes := utf8Bytes err
    u32be bytes.length ++ push_bytes bytes
  | .event (.tx t) => RpcMsgType.Event :: RpcEventType.TX :: etx t
  | .event (.block b) => RpcMsgType.Event :: RpcEventType.BLOCK :: eblk b
  | .handshake pt => [RpcMsgType.Handshake, pt.toU8]
  | .broadcast t => RpcMsgType.Broadcast :: etx t
  | .properties io =>
    RpcMsgType.Properties ::
      (match io with
       | .Out props => IoType.Out :: u64be props.height
       | .In _ => [IoType.In])
  | .block io =>
    RpcMsgType.Block ::
      (match io with
       | .In height => IoType.In :: u64be height
       | .Out b => IoType.Out :: eblk b)
  | .balance io =>
    RpcMsgType.Balance ::
      (match io with
       | .In addr => IoType.In :: push_pub_key addr
       | .Out bal => IoType.Out :: (push_asset bal.gold ++ push_asset bal.silver))
  | .totalFee io =>
    RpcMsgType.Balance ::
      (match io with
       | .In addr => IoType.In :: push_pub_key addr
       | .Out bal => IoType.Out :: (push_asset bal.gold ++ push_asset bal.silver))

/-- `RpcCodec::encode`: the request id, the message body, and a `u32`
total-length prefix covering both plus itself. -/
def RpcCodec.encode {τ β : Type} (etx : τ → List Nat) (eblk : β → List Nat)
    (pl : RpcPayload τ β) : List Nat :=
  let payload :=
    u32be pl.id ++
      (match pl.msg with
       | some m => encodeMsg etx eblk m
       | none => [])
  u32be (4 + payload.length) ++ payload

/-- Outcome of one `RpcCodec::decode` call: a decoded payload or "need
more data" (`ok`), an `Err(..)` with the source's message (`fail`), or a
panic of the `bytes` crate on cursor underrun (`panicked`). -/
inductive DecodeRes (τ β : Type) where
  | ok (payload : Option (RpcPayload τ β))
  | fail (msg : String)
  | panicked
deriving DecidableEq, Repr

/-- The tag dispatch of `RpcCodec::decode` over a fully buffered message
body, in the source's branch order.  `dtx`/`dblk` are
`TxVariant::decode_with_sigs` and `SignedBlock::decode_with_tx`, passed
as parameters. -/
def decodeBody {τ β : Type} (dtx : List Nat → Option (τ × List Nat))
    (dblk : List Nat → Option (β × List Nat))
    (id tag : Nat) (cur : List Nat) : DecodeRes τ β :=
  if tag = RpcMsgType.Error then
    match readU32 cur with
    | none => .panicked
    | some (len, cur) =>
      if len > MAX_PAYLOAD_LEN then .fail "error string too large"
      else
        -- `Vec::with_capacity(len)` allocates capacity `len` but the
        -- vector's length is zero, so `read_exact` fills zero bytes.
        match readN 0 cur with
        | none => .fail "failed to read error string"
        | some (bytes, _) => .ok (some ⟨id, some (.error (utf8Lossy bytes))⟩)
  else if tag = RpcMsgType.Event then
    match readU8 cur with
    | none => .panicked
    | some (et, cur) =>
      if et = RpcEventType.TX then
        match dtx cur with
        | none => .fail "failed to decode tx"
        | some (t, _) => .ok (some ⟨id, some (.event (.tx t))⟩)
      else if et = RpcEventType.BLOCK then
        match dblk cur with
        | none => .fail "failed to decode signed block"
        | some (b, _) => .ok (some ⟨id, some (.event (.block b))⟩)
      else .fail "invalid event type"
  else if tag = RpcMsgType.Handshake then
    match readU8 cur with
    | none => .panicked
    | some (pt, _) =>
      if pt = PeerType.NODE.toU8 then .ok (some ⟨id, some (.handshake .NODE)⟩)
      else if pt = PeerType.WALLET.toU8 then
        .ok (some ⟨id, some (.handshake .WALLET)⟩)
      else .fail "invalid peer type"
  else if tag = RpcMsgType.Broadcast then
    match dtx cur with
    | none => .fail "failed to decode broadcast tx"
    | some (t, _) => .ok (some ⟨id, some (.broadcast t)⟩)
  else if tag = RpcMsgType.Properties then
    match readU8 cur with
    | none => .panicked
    | some (io, cur) =>
      if io = IoType.In then .ok (some ⟨id, some (.properties (.In ()))⟩)
      else if io = IoType.Out then
        match readU64 cur with
        | none => .panicked
        | some (height, _) => .ok (some ⟨id, some (.properties (.Out ⟨height⟩))⟩)
      else .fail "invalid io type"
  else if tag = RpcMsgType.Block then
    match readU8 cur with
    | none => .panicked
    | some (io, cur) =>
      if io = IoType.In then
        match readU64 cur with
        | none => .panicked
        | some (height, _) => .ok (some ⟨id, some (.block (.In height))⟩)
      else if io = IoType.Out then
        match dblk cur with
        | none => .fail "failed to decode block"
        | some (b, _) => .ok (some ⟨id, some (.block (.Out b))⟩)
      else .fail "invalid io type"
  else if tag = RpcMsgType.Balance then
    match readU8 cur with
    | none => .panicked
    | some (io, cur) =>
      if io = IoType.In then
        match take_pub_key cur with
        | none => .fail "failed to decode public key"
        | some (addr, _) => .ok (some ⟨id, some (.balance (.In addr))⟩)
      else if io = IoType.Out then
        match take_asset cur with
        | none => .fail "failed to decode gold asset"
        | some (gold, cur) =>
          match take_asset cur with
          | none => .fail "failed to decode silver asset"
          | some (silver, _) =>
            .ok (some ⟨id, some (.balance (.Out ⟨gold, silver⟩))⟩)
      else .fail "invalid io type"
  else if tag = RpcMsgType.TotalFee then
    match readU8 cur with
    | none => .panicked
    | some (io, cur) =>
      if io = IoType.In then
        match take_pub_key cur with
        | none => .fail "failed to decode public key"
        | some (addr, _) => .ok (some ⟨id, some (.totalFee (.In addr))⟩)
      else if io = IoType.Out then
        match take_asset cur with
        | none => .fail "failed to decode gold asset"
        | some (gold, cur) =>
          match take_asset cur with
          | none => .fail "failed to decode silver asset"
          | some (silver, _) =>
            .ok (some ⟨id, some (.totalFee (.Out ⟨gold, silver⟩))⟩)
      else .fail "invalid io type"
  else .fail "invalid msg type"

/-- The second half of `RpcCodec::decode`: once a payload length is
buffered and that many bytes are available, split them off, read the id,
return the empty keep-alive payload when the body is just the id, and
otherwise dispatch on the tag byte.  `msg_len` is reset to zero before
the body is examined, as in the source. -/
def decodeStep2 {τ β : Type} (dtx : List Nat → Option (τ × List Nat))
    (dblk : List Nat → Option (β × List Nat))
    (st : RpcCodec) (buf : List Nat) : DecodeRes τ β × RpcCodec × List Nat :=
  if st.msg_len ≠ 0 ∧ st.msg_len ≤ buf.length then
    let split := buf.take st.msg_len
    let rest := buf.drop st.msg_len
    match readU32 split with
    | none => (.panicked, ⟨0⟩, rest)
    | some (id, cur) =>
      if st.msg_len = 4 then (.ok (some ⟨id, none⟩), ⟨0⟩, rest)
      else
        match readU8 cur with
        | none => (.panicked, ⟨0⟩, rest)
        | some (tag, cur) => (decodeBody dtx dblk id tag cur, ⟨0⟩, rest)
  else (.ok none, st, buf)

/-- `RpcCodec::decode`: with no pending length and at least four bytes
buffered, consume the big-endian `u32` total length and validate it
against `(4, MAX_PAYLOAD_LEN]`; the stored length excludes the prefix
itself.  On a validation failure the source returns `Err` with the
four length bytes already consumed and `msg_len` still holding the bad
total.  The returned triple is (result, new state, remaining buffer). -/
def RpcCodec.decode {τ β : Type} (dtx : List Nat → Option (τ × List Nat))
    (dblk : List Nat → Option (β × List Nat))
    (st : RpcCodec) (buf : List Nat) : DecodeRes τ β × RpcCodec × List Nat :=
  if st.msg_len = 0 then
    match buf with
    | b0 :: b1 :: b2 :: b3 :: rest =>
      let len := beNat4 b0 b1 b2 b3
      if len ≤ 4 then (.fail "payload must be >4 bytes", ⟨len⟩, rest)
      else if len > MAX_PAYLOAD_LEN then
        (.fail "payload must be <=5242880 bytes", ⟨len⟩, rest)
      else decodeStep2 dtx dblk ⟨len - 4⟩ rest
    | _ => decodeStep2 dtx dblk st buf
  else decodeStep2 dtx dblk st buf

theorem u32be_length (n : Nat) : (u32be n).length = 4 := by simp [u32be]

theorem readU32_u32be (n : Nat) (rest : List Nat) (h : n < 4294967296) :
    readU32 (u32be n ++ rest) = some (n, rest) := by
  simp only [u32be, List.cons_append, List.nil_append, readU32, beNat4]
  congr 1
  congr 1
  omega

theorem readU64_u64be (n : Nat) (rest : List Nat)
    (h : n < 18446744073709551616) :
    readU64 (u64be n ++ rest) = some (n, rest) := by
  simp only [u64be, List.append_assoc, readU64,
    readU32_u32be _ _ (show n / 4294967296 < 4294967296 by omega),
    readU32_u32be _ _ (show n % 4294967296 < 4294967296 by omega)]
  have h2 : n / 4294967296 * 4294967296 + n % 4294967296 = n := by omega
  rw [h2]

theorem toI64_emod (a : Int) (h : i64Range a) : toI64 (a % 2 ^ 64).toNat = a := by
  unfold toI64
  unfold i64Range I64_MIN I64_MAX at h
  split <;> omega

theorem readI64_i64be (a : Int) (rest : List Nat) (h : i64Range a) :
    readI64 (i64be a ++ rest) = some (a, rest) := by
  unfold readI64 i64be
  rw [readU64_u64be _ _ (by omega)]
  simp only [Option.map_some']
  rw [toI64_emod a h]

/-- `beNat4` inverts the four big-endian digit bytes of a `u32`. -/
theorem beNat4_u32be (n : Nat) (h : n < 4294967296) :
    beNat4 (n / 16777216 % 256) (n / 65536 % 256) (n / 256 % 256) (n % 256)
      = n := by
  unfold beNat4
  omega

/-! ## Claim C8 — a 4-byte payload decodes to an empty keep-alive -/

/-- C8: whenever the pending payload length is exactly 4 and that many
bytes are buffered, the decoder consumes them and returns a payload
carrying their big-endian value as the request id with no message body,
reporting no error. -/
theorem C8_keepalive_payload {τ β : Type}
    (dtx : List Nat → Option (τ × List Nat))
    (dblk : List Nat → Option (β × List Nat)) (b0 b1 b2 b3 : Nat)
    (rest : List Nat) :
    RpcCodec.decode dtx dblk ⟨4⟩ (b0 :: b1 :: b2 :: b3 :: rest)
      = (.ok (some ⟨beNat4 b0 b1 b2 b3, none⟩), ⟨0⟩, rest) := by
  have h1 : List.take 4 (b0 :: b1 :: b2 :: b3 :: rest) = [b0, b1, b2, b3] := rfl
  have h2 : List.drop 4 (b0 :: b1 :: b2 :: b3 :: rest) = rest := rfl
  simp [RpcCodec.decode, decodeStep2, h1, h2, readU32]

/-! ## Claim C2 — frame length validation -/

/-- C2, counterexample: the claim says a frame with `total_length = 4`
is answered with an empty payload carrying the request id, but the
decoder rejects it: lengths of at most 4 fail with
`"payload must be >4 bytes"` (the empty keep-alive corresponds to
`total_length = 8`, whose payload is just the id). -/
theorem C2_counterexample :
    (RpcCodec.decode (τ := Unit) (β := Unit) (fun _ => none) (fun _ => none)
        ⟨0⟩ [0, 0, 0, 4]).1 = .fail "payload must be >4 bytes" := by decide

/-- C2, amended: a `total_length` of at most 4 — including 3 and also 4
itself — or above `MAX_PAYLOAD_LEN = 5_242_880` — including 5 242 881 —
makes the decoder fail, closing the connection; the reply that carries
only the request id and an empty body corresponds to `total_length = 8`,
not 4. -/
theorem C2_frame_length_validation {τ β : Type}
    (dtx : List Nat → Option (τ × List Nat))
    (dblk : List Nat → Option (β × List Nat))
    (n : Nat) (rest : List Nat) (hn : n < 4294967296) :
    (n ≤ 4 →
      (RpcCodec.decode dtx dblk ⟨0⟩ (u32be n ++ rest)).1
        = .fail "payload must be >4 bytes") ∧
    (MAX_PAYLOAD_LEN < n →
      (RpcCodec.decode dtx dblk ⟨0⟩ (u32be n ++ rest)).1
        = .fail "payload must be <=5242880 bytes") ∧
    (∀ (id : Nat) (tail : List Nat), id < 4294967296 →
      (RpcCodec.decode dtx dblk ⟨0⟩ (u32be 8 ++ (u32be id ++ tail))).1
        = .ok (some ⟨id, none⟩)) := by
  refine ⟨?_, ?_, ?_⟩
  · intro hle
    simp only [u32be, List.cons_append, List.nil_append, RpcCodec.decode,
      beNat4_u32be n hn]
    simp [hle]
  · intro hgt
    have hgt2 : 5242880 < n := hgt
    simp only [u32be, List.cons_append, List.nil_append, RpcCodec.decode,
      beNat4_u32be n hn]
    rw [if_pos trivial, if_neg (by omega), if_pos (show n > MAX_PAYLOAD_LEN from hgt)]
  · intro id tail hid
    have h8 : beNat4 0 0 0 8 = 8 := by decide
    simp only [u32be, List.cons_append, List.nil_append, RpcCodec.decode]
    norm_num [h8, MAX_PAYLOAD_LEN]
    have h1 : List.take 4 ((id / 16777216 % 256) :: (id / 65536 % 256) ::
        (id / 256 % 256) :: (id % 256) :: tail)
        = [id / 16777216 % 256, id / 65536 % 256, id / 256 % 256, id % 256] := rfl
    have h2 : List.drop 4 ((id / 16777216 % 256) :: (id / 65536 % 256) ::
        (id / 256 % 256) :: (id % 256) :: tail) = tail := rfl
    simp [decodeStep2, h1, h2, readU32, beNat4_u32be id hid]

/-- C2, witness: the bounds at `total_length` 3, 4, 5 242 881 and the
keep-alive frame `total_length = 8` with id 7. -/
theorem C2_witness :
    (RpcCodec.decode (τ := Unit) (β := Unit) (fun _ => none) (fun _ => none)
        ⟨0⟩ (u32be 3 ++ [])).1 = .fail "payload must be >4 bytes" ∧
    (RpcCodec.decode (τ := Unit) (β := Unit) (fun _ => none) (fun _ => none)
        ⟨0⟩ (u32be 5242881 ++ [])).1 = .fail "payload must be <=5242880 bytes" ∧
    (RpcCodec.decode (τ := Unit) (β := Unit) (fun _ => none) (fun _ => none)
        ⟨0⟩ (u32be 8 ++ (u32be 7 ++ []))).1 = .ok (some ⟨7, none⟩) :=
  ⟨(C2_frame_length_validation (fun _ => none) (fun _ => none) 3 []
      (by decide)).1 (by decide),
   (C2_frame_length_validation (fun _ => none) (fun _ => none) 5242881 []
      (by decide)).2.1 (by decide),
   (C2_frame_length_validation (fun _ => none) (fun _ => none) 8 []
      (by decide)).2.2 7 [] (by decide)⟩

/-! ## Claim C10 — the decoder loses the text of an Error message -/

/-- C10: for every buffer whose tag is the `Error` tag and whose
declared string length is within the payload limit, decoding succeeds
with an `Error` message whose string is empty, whatever `len` and the
following bytes: the read buffer is `Vec::with_capacity(len)` with
length zero, so `read_exact` reads nothing. -/
theorem C10_error_text_lost {τ β : Type}
    (dtx : List Nat → Option (τ × List Nat))
    (dblk : List Nat → Option (β × List Nat))
    (id len : Nat) (rest : List Nat)
    (hid : id < 4294967296) (hlen : len < 4294967296)
    (hlenMax : len ≤ MAX_PAYLOAD_LEN) (hrest : rest.length ≤ 5242867) :
    (RpcCodec.decode dtx dblk ⟨0⟩
        (u32be (13 + rest.length) ++ (u32be id ++
          (RpcMsgType.Error :: (u32be len ++ rest))))).1
      = .ok (some ⟨id, some (.error "")⟩) := by
  have hmax : (5242867 : Nat) = MAX_PAYLOAD_LEN - 13 := by decide
  have hT : 13 + rest.length < 4294967296 := by
    simp [MAX_PAYLOAD_LEN] at hlenMax ⊢
    omega
  have hbody : (u32be id ++ (RpcMsgType.Error :: (u32be len ++ rest))).length
      = 13 + rest.length - 4 := by
    simp [u32be]
    omega
  have htake : List.take (13 + rest.length - 4)
      (u32be id ++ (RpcMsgType.Error :: (u32be len ++ rest)))
      = u32be id ++ (RpcMsgType.Error :: (u32be len ++ rest)) := by
    apply List.take_of_length_le
    omega
  conv_lhs =>
    rw [show u32be (13 + rest.length)
        = [(13 + rest.length) / 16777216 % 256, (13 + rest.length) / 65536 % 256,
           (13 + rest.length) / 256 % 256, (13 + rest.length) % 256] from rfl]
  simp only [List.cons_append, List.nil_append, RpcCodec.decode]
  rw [if_pos trivial]
  simp only [beNat4_u32be (13 + rest.length) hT]
  rw [if_neg (by omega), if_neg (by simp [MAX_PAYLOAD_LEN]; omega)]
  simp only [decodeStep2]
  rw [if_pos ⟨by omega, by rw [hbody]⟩]
  rw [htake]
  simp only [readU32_u32be id _ hid]
  rw [if_neg (by omega)]
  simp only [readU8]
  simp only [decodeBody]
  rw [if_pos trivial]
  simp only [readU32_u32be len rest hlen]
  rw [if_neg (by omega)]
  simp [readN, utf8Lossy]

/-- C10, witness: a concrete error frame with id 1, declared length
5 242 880 and one stray byte decodes to the empty error string. -/
theorem C10_witness :
    (RpcCodec.decode (τ := Unit) (β := Unit) (fun _ => none) (fun _ => none)
        ⟨0⟩ (u32be (13 + [9].length) ++ (u32be 1 ++
          (RpcMsgType.Error :: (u32be 5242880 ++ [9]))))).1
      = .ok (some ⟨1, some (.error "")⟩) :=
  C10_error_text_lost (fun _ => none) (fun _ => none) 1 5242880 [9]
    (by decide) (by decide) (by decide) (by decide)

/-! ## Claim C5 — Error message encoding layout -/

/-- The `Error` body layout the spec's message-tag table describes: the
message-type tag byte, then `u32 len`, then exactly the UTF-8 bytes of
the message. -/
def specErrorBody (tag : Nat) (s : String) : List Nat :=
  tag :: (u32be (utf8Bytes s).length ++ utf8Bytes s)

/-- C5, counterexample: encoding `Error("a")` emits no tag byte and a
doubled length prefix — 9 body bytes where the spec's layout has 6.  The
length mismatch shows no choice of tag value reconciles the two. -/
theorem C5_counterexample :
    encodeMsg (τ := Unit) (β := Unit) (fun _ => []) (fun _ => [])
        (.error "a") = [0, 0, 0, 1, 0, 0, 0, 1, 97] ∧
    specErrorBody RpcMsgType.Error "a" = [0, 0, 0, 0, 1, 97] ∧
    (encodeMsg (τ := Unit) (β := Unit) (fun _ => []) (fun _ => [])
        (.error "a")).length
      ≠ (specErrorBody RpcMsgType.Error "a").length := by
  refine ⟨by decide, by decide, by decide⟩

/-- C5, amended: the `Error` branch of the encoder writes no
message-type tag and writes the `u32` length twice — once directly and
once again inside the length-prefixed `push_bytes` helper — before the
UTF-8 bytes of the message. -/
theorem C5_error_encoding_layout {τ β : Type} (etx : τ → List Nat)
    (eblk : β → List Nat) (s : String) :
    encodeMsg etx eblk (.error s : RpcMsg τ β)
      = u32be (utf8Bytes s).length
          ++ (u32be (utf8Bytes s).length ++ utf8Bytes s) := by
  simp [encodeMsg, push_bytes]

/-! ## Claim C4 — TotalFee is encoded with the Balance tag -/

/-- C4: the encoder writes the `Balance` message-type tag in the
`TotalFee` branch, so a `TotalFee` message and a `Balance` message with
the same `IO` body encode to identical bytes; consequently decoding an
encoded `TotalFee` frame yields a `Balance` message (the decoder's
`Balance` arm matches first), for both the request (`In`) and response
(`Out`) directions. -/
theorem C4_totalfee_encoded_as_balance {τ β : Type}
    (etx : τ → List Nat) (eblk : β → List Nat)
    (dtx : List Nat → Option (τ × List Nat))
    (dblk : List Nat → Option (β × List Nat)) :
    (∀ io : Io (List Nat) Balance,
      encodeMsg etx eblk (.totalFee io : RpcMsg τ β)
        = encodeMsg etx eblk (.balance io)) ∧
    (∀ (id : Nat) (addr : List Nat), id < 4294967296 → addr.length = 32 →
      (RpcCodec.decode dtx dblk ⟨0⟩
          (RpcCodec.encode etx eblk ⟨id, some (.totalFee (.In addr))⟩)).1
        = .ok (some ⟨id, some (.balance (.In addr))⟩)) ∧
    (∀ (id : Nat) (bal : Balance), id < 4294967296 →
      i64Range bal.gold.amount → i64Range bal.silver.amount →
      (RpcCodec.decode dtx dblk ⟨0⟩
          (RpcCodec.encode etx eblk ⟨id, some (.totalFee (.Out bal))⟩)).1
        = .ok (some ⟨id, some (.balance (.Out bal))⟩)) := by
  refine ⟨fun io => by cases io <;> rfl, ?_, ?_⟩
  · intro id addr hid haddr
    have htake32 : List.take 32 addr = addr := by
      rw [← haddr]
      exact List.take_length addr
    simp only [RpcCodec.encode, encodeMsg, push_pub_key]
    have hplen : (u32be id
        ++ (RpcMsgType.Balance :: IoType.In :: addr)).length = 38 := by
      simp [u32be, haddr]
    rw [hplen]
    conv_lhs => rw [show u32be (4 + 38) = [0, 0, 0, 42] from rfl]
    simp only [List.cons_append, List.nil_append, RpcCodec.decode]
    rw [if_pos trivial]
    rw [show beNat4 0 0 0 42 = 42 from rfl]
    rw [if_neg (by omega), if_neg (by decide)]
    simp only [decodeStep2]
    rw [if_pos ⟨by omega, by rw [hplen]⟩]
    rw [show (42 : Nat) - 4 = 38 from rfl, ← hplen, List.take_length]
    simp only [readU32_u32be id _ hid]
    rw [hplen, if_neg (by omega)]
    simp only [readU8]
    simp only [decodeBody, RpcMsgType.Error, RpcMsgType.Event,
      RpcMsgType.Handshake, RpcMsgType.Broadcast, RpcMsgType.Properties,
      RpcMsgType.Block, RpcMsgType.Balance, RpcMsgType.TotalFee,
      IoType.In, IoType.Out]
    norm_num
    simp [readU8, take_pub_key, readN, haddr, htake32]
  · intro id bal hid hg hs
    simp only [RpcCodec.encode, encodeMsg, push_asset]
    have hplen : (u32be id ++ (RpcMsgType.Balance :: IoType.Out ::
        (i64be bal.gold.amount ++ i64be bal.silver.amount))).length = 22 := by
      simp [u32be, i64be, u64be]
    rw [hplen]
    conv_lhs => rw [show u32be (4 + 22) = [0, 0, 0, 26] from rfl]
    simp only [List.cons_append, List.nil_append, RpcCodec.decode]
    rw [if_pos trivial]
    rw [show beNat4 0 0 0 26 = 26 from rfl]
    rw [if_neg (by omega), if_neg (by decide)]
    simp only [decodeStep2]
    rw [if_pos ⟨by omega, by rw [hplen]⟩]
    rw [show (26 : Nat) - 4 = 22 from rfl, ← hplen, List.take_length]
    simp only [readU32_u32be id _ hid]
    rw [hplen, if_neg (by omega)]
    simp only [readU8]
    simp only [decodeBody, RpcMsgType.Error, RpcMsgType.Event,
      RpcMsgType.Handshake, RpcMsgType.Broadcast, RpcMsgType.Properties,
      RpcMsgType.Block, RpcMsgType.Balance, RpcMsgType.TotalFee,
      IoType.In, IoType.Out]
    norm_num
    have h2 : readI64 (i64be bal.silver.amount)
        = some (bal.silver.amount, []) := by
      rw [← List.append_nil (i64be bal.silver.amount)]
      exact readI64_i64be _ _ hs
    simp [readU8, take_asset, readI64_i64be bal.gold.amount _ hg, h2,
      Option.map_some']

/-! ## Connection handler (crates/server/src/server/lib.rs) -/

/-- `net::BlockFilter`: a set of addresses (each a script hash, here a
byte list). -/
def BlockFilter : Type := List (List Nat)

/-- `net::ErrorKind` of the regiusmark wire protocol, as constructed in
`lib.rs`; the `TxValidation` payload type is a parameter. -/
inductive ErrorKind (ρ : Type) where
  | io
  | bytesRemaining
  | invalidRequest
  | invalidHeight
  | txValidation (e : ρ)

/-- `net::RequestBody` as dispatched by `handle_request`; payload types
that live outside the embedded file are parameters (`τ` the transaction
type, `κ` the public-key type). -/
inductive RequestBody (τ κ : Type) where
  | broadcast (tx : τ)
  | setBlockFilter (filter : BlockFilter)
  | clearBlockFilter
  | subscribe
  | unsubscribe
  | getProperties
  | getBlock (height : Nat)
  | getFullBlock (height : Nat)
  | getBlockRange (minHeight maxHeight : Nat)
  | getAddressInfo (addr : κ)

/-- `net::Request { id: u32, body }`. -/
structure Request (τ κ : Type) where
  id : Nat
  body : RequestBody τ κ

/-- `net::ResponseBody`; response payload types that live outside the
embedded file are parameters (`π` properties, `φ` filtered blocks, `γ`
address info, `ρ` tx-validation errors). -/
inductive ResponseBody (π φ γ ρ : Type) where
  | broadcast
  | setBlockFilter
  | clearBlockFilter
  | subscribe
  | unsubscribe
  | getProperties (props : π)
  | getBlock (b : φ)
  | getFullBlock (b : φ)
  | getBlockRange
  | getAddressInfo (info : γ)
  | error (e : ErrorKind ρ)

/-- `net::Response { id: u32, body }`. -/
structure Response (π φ γ ρ : Type) where
  id : Nat
  body : ResponseBody π φ γ ρ

/-- `tungstenite::Message`: the WebSocket frame kinds `process_message`
matches on (`Close` covers the wildcard arm). -/
inductive Message where
  | binary (buf : List Nat)
  | text (s : String)
  | ping (buf : List Nat)
  | pong (buf : List Nat)
  | close (reason : Option String)

/-- Whether a message is a WebSocket close frame. -/
def Message.isClose : Message → Bool
  | .close _ => true
  | _ => false

/-- `WsState`: the per-connection fields `process_message` can read or
write — the block filter and the keep-alive flag.  The peer address and
the outbound channel are connection plumbing with no bearing on the
embedded logic. -/
structure WsState where
  filter : Option BlockFilter
  needsPong : Bool

/-- `process_message`.  `deser` is `Request::deserialize` together with
the final cursor position, `serResp` is `Response::serialize`, and
`handle` is `handle_request`, which may replace the state's filter and
may return no response; all three live outside the embedded file and are
parameters.  A binary frame clears `needs_pong`, then deserializes: a
request id of `u32::MAX` is answered — without dispatching — by an
`Error(Io)` response carrying id `u32::MAX`; trailing bytes yield
`Error(BytesRemaining)`; otherwise the request is dispatched.  A text
frame is answered with a close frame and touches nothing else.  Ping and
pong frames clear `needs_pong`.  Other frames are ignored. -/
def process_message {τ κ π φ γ ρ : Type}
    (deser : List Nat → Except Unit (Request τ κ × Nat))
    (serResp : Response π φ γ ρ → List Nat)
    (handle : Request τ κ → Option BlockFilter →
      Option BlockFilter × Option (ResponseBody π φ γ ρ))
    (state : WsState) (msg : Message) : WsState × Option Message :=
  match msg with
  | .binary buf =>
    let state := { state with needsPong := false }
    match deser buf with
    | .ok (req, pos) =>
      if req.id = 4294967295 then
        (state, some (.binary (serResp ⟨4294967295, .error .io⟩)))
      else if pos ≠ buf.length then
        (state, some (.binary (serResp ⟨req.id, .error .bytesRemaining⟩)))
      else
        match handle req state.filter with
        | (f, some body) =>
          ({ state with filter := f }, some (.binary (serResp ⟨req.id, body⟩)))
        | (f, none) => ({ state with filter := f }, none)
    | .error _ =>
      (state, some (.binary (serResp ⟨4294967295, .error .io⟩)))
  | .text _ => (state, some (.close (some "text is not supported")))
  | .ping _ => ({ state with needsPong := false }, none)
  | .pong _ => ({ state with needsPong := false }, none)
  | .close _ => (state, none)

/-- A concrete deserializer used to instantiate the parametric handler:
every buffer parses as a `Subscribe` request carrying the reserved id,
with the whole buffer consumed. -/
def deserReserved (buf : List Nat) : Except Unit (Request Unit Unit × Nat) :=
  .ok (⟨4294967295, .subscribe⟩, buf.length)

/-- A concrete serializer instantiation that emits no bytes. -/
def serRespNull (_ : Response Unit Unit Unit Unit) : List Nat := []

/-- A concrete handler instantiation that never responds and keeps the
filter. -/
def handleNull (_ : Request Unit Unit) (f : Option BlockFilter) :
    Option BlockFilter × Option (ResponseBody Unit Unit Unit Unit) :=
  (f, none)

/-! ## Claim C3 — the reserved request id 0xFFFFFFFF -/

/-- C3, counterexample: a well-formed binary request with id
`0xFFFFFFFF` is answered with a binary `Error(Io)` response — the
connection is not closed (the reply is not a close frame), contrary to
the claim. -/
theorem C3_counterexample :
    (process_message deserReserved serRespNull handleNull
        ⟨none, false⟩ (.binary [1])).2 = some (.binary []) ∧
    ((process_message deserReserved serRespNull handleNull
        ⟨none, false⟩ (.binary [1])).2.map Message.isClose) = some false := by
  exact ⟨rfl, rfl⟩

/-- C3, amended: for every well-formed binary request whose id is
`0xFFFFFFFF`, the server does not dispatch the request (the result is
the same whatever `handle` does), but instead of closing the connection
it replies with a binary `Error(Io)` response carrying id `0xFFFFFFFF`;
no close frame is sent. -/
theorem C3_reserved_id_not_closed {τ κ π φ γ ρ : Type}
    (deser : List Nat → Except Unit (Request τ κ × Nat))
    (serResp : Response π φ γ ρ → List Nat)
    (handle : Request τ κ → Option BlockFilter →
      Option BlockFilter × Option (ResponseBody π φ γ ρ))
    (st : WsState) (buf : List Nat) (req : Request τ κ) (pos : Nat)
    (hd : deser buf = .ok (req, pos)) (hid : req.id = 4294967295) :
    process_message deser serResp handle st (.binary buf)
      = ({ st with needsPong := false },
         some (.binary (serResp ⟨4294967295, .error .io⟩))) ∧
    ((process_message deser serResp handle st (.binary buf)).2.map
        Message.isClose) = some false := by
  have h : process_message deser serResp handle st (.binary buf)
      = ({ st with needsPong := false },
         some (.binary (serResp ⟨4294967295, .error .io⟩))) := by
    simp only [process_message]
    rw [hd]
    simp [hid]
  exact ⟨h, by rw [h]; rfl⟩

/-- C3, witness: the amended claim at the concrete instantiation. -/
theorem C3_witness :
    process_message deserReserved serRespNull handleNull ⟨none, true⟩
        (.binary [5])
      = (⟨none, false⟩,
         some (.binary (serRespNull ⟨4294967295, .error .io⟩))) ∧
    ((process_message deserReserved serRespNull handleNull ⟨none, true⟩
        (.binary [5])).2.map Message.isClose) = some false :=
  C3_reserved_id_not_closed deserReserved serRespNull handleNull
    ⟨none, true⟩ [5] ⟨4294967295, .subscribe⟩ 1 rfl rfl

/-! ## Claim C9 — which frames clear needs_pong -/

/-- C9, counterexample: a text frame does not clear `needs_pong`: with
the flag set, processing a text message leaves it set, contrary to the
claim that every incoming frame clears it. -/
theorem C9_counterexample :
    ((process_message deserReserved serRespNull handleNull
        ⟨none, true⟩ (.text "hi")).1).needsPong = true := rfl

/-- C9, amended: binary, ping and pong frames clear `needs_pong`
(whatever the deserializer, serializer and dispatcher do), while text
frames — answered with a close frame — and close frames leave the flag
unchanged. -/
theorem C9_needs_pong_clearing {τ κ π φ γ ρ : Type}
    (deser : List Nat → Except Unit (Request τ κ × Nat))
    (serResp : Response π φ γ ρ → List Nat)
    (handle : Request τ κ → Option BlockFilter →
      Option BlockFilter × Option (ResponseBody π φ γ ρ))
    (st : WsState) :
    (∀ buf, ((process_message deser serResp handle st
        (.binary buf)).1).needsPong = false) ∧
    (∀ buf, ((process_message deser serResp handle st
        (.ping buf)).1).needsPong = false) ∧
    (∀ buf, ((process_message deser serResp handle st
        (.pong buf)).1).needsPong = false) ∧
    (∀ s, ((process_message deser serResp handle st
        (.text s)).1).needsPong = st.needsPong) ∧
    (∀ r, ((process_message deser serResp handle st
        (.close r)).1).needsPong = st.needsPong) := by
  refine ⟨?_, fun _ => rfl, fun _ => rfl, fun _ => rfl, fun _ => rfl⟩
  intro buf
  simp only [process_message]
  cases deser buf with
  | error e => rfl
  | ok p =>
    obtain ⟨req, pos⟩ := p
    by_cases h1 : req.id = 4294967295
    · simp [h1]
    · by_cases h2 : pos = buf.length
      · simp only [h1, h2]
        rcases handle req st.filter with ⟨f, _ | b⟩ <;> simp
      · simp [h1, h2]
